import Mathlib

/-!
# Verification of the `citk` feed-forward network core (`src/citk/model.py`)

Shallow embedding of the `FFN` class: real numbers are modelled as `ℚ`
(exact arithmetic; floating point is out of scope), numpy vectors as
`List ℚ`, shapes as `List ℕ`.  A numpy value returned by the injected
loss collaborator may be a scalar or a one-dimensional array, modelled by
`NPVal`; Python indexing `v[0]` is the fallible `NPVal.item0` (indexing a
scalar raises, indexing an empty array raises).  A Python expression that
raises an exception is modelled by `Option`/`none` propagation.

The layer catalogue, the concrete optimisers and the batch generator live
in modules that are external collaborators of this core; they enter the
embedding as record-of-functions parameters, exactly as the spec's
interface sections describe them.
-/

set_option autoImplicit false

namespace Citk

/-- Extended rationals: the training loop initialises `best_score` to
`np.inf` (minimising) or `-np.inf` (maximising) and compares finite
validation losses against it. -/
inductive ERat where
  | negInf : ERat
  | fin : ℚ → ERat
  | posInf : ERat
deriving DecidableEq

/-- Strict order on `ERat`, mirroring Python float comparison against
`±inf` (Boolean-valued because the source branches on it). -/
def ERat.lt : ERat → ERat → Bool
  | ERat.negInf, ERat.negInf => false
  | ERat.negInf, _ => true
  | ERat.fin _, ERat.negInf => false
  | ERat.fin a, ERat.fin b => decide (a < b)
  | ERat.fin _, ERat.posInf => true
  | ERat.posInf, _ => false

/-- A numpy value handed back by the loss collaborator: either a true
scalar (Python float / 0-d array) or a 1-d array. -/
inductive NPVal where
  | scalar : ℚ → NPVal
  | arr : List ℚ → NPVal
deriving DecidableEq

/-- Numpy broadcasting of `value + c` for a scalar `c` (used for adding
the regularization term `reg_coef * reg` to the collaborator's loss). -/
def NPVal.addScalar : NPVal → ℚ → NPVal
  | NPVal.scalar q, c => NPVal.scalar (q + c)
  | NPVal.arr l, c => NPVal.arr (l.map (fun x => x + c))

/-- Python `v[0]`: the first element of a 1-d array; indexing a scalar
raises `TypeError`/`IndexError` (modelled as `none`), as does indexing an
empty array. -/
def NPVal.item0 : NPVal → Option ℚ
  | NPVal.scalar _ => none
  | NPVal.arr l => l.head?

/-- `np.mean` of the accumulated per-batch losses.  (For an empty list
numpy yields NaN; here `0/0 = 0`.  No claim inspects the mean of an empty
accumulation, and `fit` only ever takes the mean after iterating the
epoch's batches.) -/
def npMean (l : List ℚ) : ℚ := l.sum / (l.length : ℚ)

/-- Modelled from the spec: `WeightsParser` (defined in `citk/layer.py`,
which is not part of the provided source).  Per spec §4.1 it is a registry
of `(identifier, offset, count)` descriptors plus a write cursor `N`;
`add` appends at the current end offset and advances the cursor. -/
structure WeightsParser where
  idxs : List (String × ℕ × ℕ)
  N : ℕ
deriving DecidableEq

/-- Modelled from the spec: `WeightsParser.add_weights(name, shape)` with
`shape = (count,)` appends a descriptor at the current end offset and
advances the cursor; it fails (`DuplicateIdentifierError`) if the
identifier is already present. -/
def WeightsParser.add_weights (p : WeightsParser) (id : String) (count : ℕ) :
    Option WeightsParser :=
  if p.idxs.any (fun e => e.1 == id) then none
  else some { idxs := p.idxs ++ [(id, p.N, count)], N := p.N + count }

/-- Modelled from the spec: `WeightsParser.get(vector, name)` returns the
registered sub-range of `vector`; it fails (`UnknownIdentifierError`) if
the identifier is absent.  Numpy slicing truncates silently at the end of
the vector, hence `drop`/`take`. -/
def WeightsParser.get (p : WeightsParser) (v : List ℚ) (id : String) :
    Option (List ℚ) :=
  match p.idxs.find? (fun e => e.1 == id) with
  | none => none
  | some e => some ((v.drop e.2.1).take e.2.2)

/-- A layer collaborator (spec §4.2): `BaseLayer` variants live in the
external layer catalogue.  `variant` is the layer's class name, `number`
the position index assigned by `FFN.__init__`; `build_weights_dict`
returns `(N_weights, output_shape)` or fails with
`IncompatibleShapeError`; `initializer` produces raw initial values;
`forward` transforms a batch given the layer's weight slice. -/
structure Layer where
  variant : String
  number : ℕ
  build_weights_dict : List ℕ → Option (ℕ × List ℕ)
  initLayerWeights : ℕ → List ℚ
  forward : List ℚ → List ℚ → List ℚ

/-- Modelled from the spec: `str(layer)` — the layer identifier is
derived deterministically from the variant name and the position index
(spec §4.2, "Layer identifier"). -/
def Layer.str (l : Layer) : String := l.variant ++ "_" ++ toString l.number

/-- The `FFN` object: owns the `WeightsParser`, the regularization
configuration, the numbered layer sequence, the live parameter vector
`W_vect` and the injected loss collaborator `_loss` (here `base_loss`).
`_optimiser` is the field `fit` creates on its first call (absent —
`none` — until then). -/
structure FFN where
  parser : WeightsParser
  regularization : String
  reg_coef : ℚ
  layer_specs : List Layer
  W_vect : List ℚ
  base_loss : List ℚ → List ℚ → NPVal
  _optimiser : Option ℕ

/-- The construction loop of `FFN.__init__`: for each layer in order,
assign its position number, call `build_weights_dict` with the running
shape, register `(N_weights,)` under `str(layer)`, and append
`initializer(size=(N_weights,))` to the growing flat vector.  Any layer
or parser failure aborts construction. -/
def initLayersGo (parser : WeightsParser) (w : List ℚ) (shape : List ℕ)
    (num : ℕ) : List Layer → Option (WeightsParser × List ℚ × List Layer)
  | [] => some (parser, w, [])
  | l :: rest =>
    match ({ l with number := num } : Layer).build_weights_dict shape with
    | none => none
    | some nw =>
      match parser.add_weights (Layer.str { l with number := num }) nw.1 with
      | none => none
      | some parser1 =>
        match initLayersGo parser1
            (w ++ ({ l with number := num } : Layer).initLayerWeights nw.1)
            nw.2 (num + 1) rest with
        | none => none
        | some r =>
          some (r.1, r.2.1, ({ l with number := num } : Layer) :: r.2.2)

/-- `FFN.__init__(input_shape, layer_specs, loss, **kwargs)`:
`regularization` defaults to `"l2"` and `reg_coef` to `0` when the
keyword is absent (`kwargs.get`); the final parameter vector is
`0.1 * W_vect`. -/
def mkFFN (input_shape : List ℕ) (layer_specs : List Layer)
    (loss : List ℚ → List ℚ → NPVal) (regKW : Option String)
    (regCoefKW : Option ℚ) : Option FFN :=
  match initLayersGo { idxs := [], N := 0 } [] input_shape 0 layer_specs with
  | none => none
  | some r =>
    some { parser := r.1,
           regularization := regKW.getD "l2",
           reg_coef := regCoefKW.getD 0,
           layer_specs := r.2.2,
           W_vect := r.2.1.map (fun x => (1 / 10 : ℚ) * x),
           base_loss := loss,
           _optimiser := none }

/-- The loop body of `FFN._predict`: each layer reads its own slice of
`W_vect` through the parser and transforms the running units. -/
def predictGo (p : WeightsParser) (w : List ℚ) :
    List Layer → List ℚ → Option (List ℚ)
  | [], cur => some cur
  | l :: rest, cur =>
    match p.get w l.str with
    | none => none
    | some ws => predictGo p w rest (l.forward cur ws)

/-- `FFN._predict(W_vect, inputs)`. -/
def FFN.predictW (net : FFN) (w inputs : List ℚ) : Option (List ℚ) :=
  predictGo net.parser w net.layer_specs inputs

/-- `FFN.loss(W_vect, X, y, omit_reg)`: the regularization term is the
squared L2 norm when `regularization == "l2"` and `omit_reg` is false,
the L1 norm when `"l1"` and `omit_reg` is false, and `0.0` otherwise; the
result is `_loss(_predict(W_vect, X), y) + reg_coef * reg`.
`np.power(np.linalg.norm(W, 2), 2)` is exactly the sum of squares and
`np.linalg.norm(W, 1)` the sum of absolute values. -/
def normSqL2 (w : List ℚ) : ℚ := (w.map (fun x => x * x)).sum

/-- `np.linalg.norm(W_vect, 1)`: sum of absolute values. -/
def normL1 (w : List ℚ) : ℚ := (w.map (fun x => |x|)).sum

/-- `FFN.loss` itself (named `lossFn` since `loss` is the collaborator's
name in `__init__`). -/
def FFN.lossFn (net : FFN) (w X y : List ℚ) (omit_reg : Bool) :
    Option NPVal :=
  let reg : ℚ :=
    if (net.regularization == "l2") && !omit_reg then normSqL2 w
    else if (net.regularization == "l1") && !omit_reg then normL1 w
    else 0
  (net.predictW w X).map
    (fun p => (net.base_loss p y).addScalar (net.reg_coef * reg))

/-- `FFN.eval(input, output)`: the training loss at the live parameters
with regularization omitted. -/
def FFN.eval (net : FFN) (input output : List ℚ) : Option NPVal :=
  net.lossFn net.W_vect input output true

/-- The optimiser collaborator (spec §6): `apply(loss_fn, X, y,
current_vector, verbose)` returns `(stop_flag, new_vector, batch_loss)`.
-/
structure Optimiser where
  apply : (List ℚ → List ℚ → List ℚ → Bool → Option NPVal) →
      List ℚ → List ℚ → List ℚ → Bool → Bool × List ℚ × ℚ

/-- The `history` dictionary built by `fit`: three parallel append-only
lists. -/
structure History where
  epoch : List ℕ
  train_loss : List ℚ
  validation_loss : List ℚ
deriving DecidableEq

/-- The loop state of `fit` between epochs: the network (whose `W_vect`
the batch loop reassigns), the best snapshot
(`best_inst`/`best_score`/`best_epoch`) and the history. -/
structure FitState where
  net : FFN
  best_inst : Option (List ℚ)
  best_score : ERat
  best_epoch : ℕ
  hist : History

/-- The inner batch loop of one epoch: for each `(X, y)` batch,
`to_stop, inst, tr_loss = optimiser.apply(self.loss, X, y, self.W_vect,
verbose)`, then `self.W_vect = inst` and `tr_accum_loss.append(tr_loss)`.
Each batch overwrites `to_stop`; the returned flag is the last batch's
(or the incoming one when there are no batches). -/
def runBatches (opt : Optimiser) (vb : Bool) :
    FFN → Bool → List ℚ → List (List ℚ × List ℚ) → FFN × Bool × List ℚ
  | net, toStop, accum, [] => (net, toStop, accum)
  | net, _, accum, b :: rest =>
    let r := opt.apply net.lossFn b.1 b.2 net.W_vect vb
    runBatches opt vb { net with W_vect := r.2.1 } r.1 (accum ++ [r.2.2]) rest

/-- The snapshot-update conditional at the end of an epoch body
(`model.py` lines 116-125): `best_inst`/`best_score`/`best_epoch` are
replaced exactly when `minimize_metric and val_loss < best_score`, or
`(not minimize_metric) and val_loss > best_score`; otherwise `pass`.
`best_inst` receives `deepcopy(self.W_vect)` — under the embedding's
value semantics a deep copy is the value itself.  `net1` is the network
after the epoch's batch loop and `hist2` the history after the epoch's
bookkeeping. -/
def snapshotUpdate (mm : Bool) (i : ℕ) (val_loss : ℚ) (net1 : FFN)
    (hist2 : History) (st : FitState) : FitState :=
  if mm && ERat.lt (ERat.fin val_loss) st.best_score then
    { net := net1, best_inst := some net1.W_vect,
      best_score := ERat.fin val_loss, best_epoch := i, hist := hist2 }
  else if (!mm) && ERat.lt st.best_score (ERat.fin val_loss) then
    { net := net1, best_inst := some net1.W_vect,
      best_score := ERat.fin val_loss, best_epoch := i, hist := hist2 }
  else
    { st with net := net1, hist := hist2 }

/-- The history after one epoch's bookkeeping: the epoch index and the
mean accumulated training loss are appended before validation, the
validation loss right after it is computed. -/
def epochHist (st : FitState) (i : ℕ) (accum : List ℚ) (val_loss : ℚ) :
    History :=
  { epoch := st.hist.epoch ++ [i],
    train_loss := st.hist.train_loss ++ [npMean accum],
    validation_loss := st.hist.validation_loss ++ [val_loss] }

/-- The epoch loop of `fit`, `k` epochs remaining, `i` the next epoch
index.  Per epoch: run the batch loop (with `to_stop` reset to false),
append the epoch index and the mean accumulated training loss to the
history, compute `val_loss = self.eval(*validation_sample)[0]` (an
exception here propagates out of `fit`: `none`), append it, update the
best snapshot only on strict improvement in the configured direction, and
break if the last batch signalled stop. -/
def runEpochs (opt : Optimiser) (batches : List (List ℚ × List ℚ))
    (vX vY : List ℚ) (mm vb : Bool) : ℕ → ℕ → FitState → Option FitState
  | 0, _, st => some st
  | k + 1, i, st =>
    let r := runBatches opt vb st.net false [] batches
    match (FFN.eval r.1 vX vY).bind NPVal.item0 with
    | none => none
    | some val_loss =>
      let st1 : FitState := snapshotUpdate mm i val_loss r.1
        (epochHist st i r.2.2 val_loss) st
      if r.2.1 then some st1 else runEpochs opt batches vX vY mm vb k (i + 1) st1

/-- `epochs = epochs if epochs else 1`: both an absent `epochs` and the
falsy `0` become the default `1`. -/
def epochsVal : Option ℕ → ℕ
  | none => 1
  | some 0 => 1
  | some e => e

/-- The state of `fit` just before the epoch loop: `self._optimiser` has
been assigned, `best_inst = None`, `best_score = ±np.inf` per
`minimize_metric`, `best_epoch = 0`, and the history lists are empty. -/
def initFitState (net : FFN) (optRef : ℕ) (mm : Bool) : FitState :=
  { net := { net with _optimiser := some optRef },
    best_inst := none,
    best_score := if mm then ERat.posInf else ERat.negInf,
    best_epoch := 0,
    hist := { epoch := [], train_loss := [], validation_loss := [] } }

/-- `FFN.fit`.  The batch generator `gen_batch(train_sample, batch_size)`
is an external collaborator (spec §6): per epoch it yields the same
finite batch sequence, taken here as the list `batches`.  The optimiser
object stored into `self._optimiser` is modelled as an opaque reference
`optRef` alongside its behaviour `opt`.  After the epoch loop, if
`load_best_model_on_end` the live vector is replaced by `best_inst`;
were `best_inst` still `None` at that point the live vector would become
`None` — a state `W_vect : List ℚ` cannot denote, modelled as `none` and
proved unreachable (`confirmed_C6`). -/
def FFN.fit (net : FFN) (optRef : ℕ) (opt : Optimiser)
    (batches : List (List ℚ × List ℚ)) (vX vY : List ℚ)
    (epochsArg : Option ℕ) (vb : Bool)
    (load_best_model_on_end minimize_metric : Bool) :
    Option (FFN × History) :=
  match runEpochs opt batches vX vY minimize_metric vb (epochsVal epochsArg) 0
      (initFitState net optRef minimize_metric) with
  | none => none
  | some st =>
    if load_best_model_on_end then
      match st.best_inst with
      | some w => some ({ st.net with W_vect := w }, st.hist)
      | none => none
    else some (st.net, st.hist)

/-! ## Concrete instances used by witnesses and counterexamples -/

/-- A loss collaborator returning a 1-element array (the shape the
training loop's `[0]` indexing expects). -/
def cLoss : List ℚ → List ℚ → NPVal := fun _ _ => NPVal.arr [0]

/-- A loss collaborator returning a true scalar, exactly the
`(predictions, targets) → scalar` interface of spec §6 and the
`-> float` annotation on `FFN.eval`. -/
def cScalarLoss : List ℚ → List ℚ → NPVal := fun _ _ => NPVal.scalar 0

/-- A zero-layer network with the default regularization configuration. -/
def cNet : FFN :=
  { parser := { idxs := [], N := 0 }, regularization := "l2", reg_coef := 0,
    layer_specs := [], W_vect := [], base_loss := cLoss, _optimiser := none }

/-- `cNet` with the scalar-returning loss collaborator. -/
def cScalarNet : FFN :=
  { parser := { idxs := [], N := 0 }, regularization := "l2", reg_coef := 0,
    layer_specs := [], W_vect := [], base_loss := cScalarLoss,
    _optimiser := none }

/-- An optimiser stub that keeps the parameters, reports batch loss `0`
and never signals stop. -/
def cOpt : Optimiser := { apply := fun _ _ _ w _ => (false, w, 0) }

/-- An optimiser stub that signals stop exactly on the batch whose input
is `[1]` (and on no other batch). -/
def cStopFirstOpt : Optimiser :=
  { apply := fun _ X _ w _ => (X == [1], w, 0) }

/-- A single batch. -/
def cBatches : List (List ℚ × List ℚ) := [([0], [0])]

/-- Two batches: the first is the one `cStopFirstOpt` stops on, the
second is not. -/
def cBatches2 : List (List ℚ × List ℚ) := [([1], [0]), ([2], [0])]

/-- The initial fit state for `cNet`, optimiser reference `0`,
minimizing. -/
def cSt0 : FitState := initFitState cNet 0 true

/-- `cNet` after `fit` has stored the optimiser reference. -/
def cNetOpt : FFN :=
  { parser := { idxs := [], N := 0 }, regularization := "l2", reg_coef := 0,
    layer_specs := [], W_vect := [], base_loss := cLoss,
    _optimiser := some 0 }

/-- The fit state after one epoch of `cOpt` on `cBatches` from `cSt0`. -/
def cSt1 : FitState :=
  { net := cNetOpt, best_inst := some [], best_score := ERat.fin 0,
    best_epoch := 0,
    hist := { epoch := [0], train_loss := [0], validation_loss := [0] } }

/-- The fit state after one further epoch of `cOpt` on `cBatches` from
`cSt1`: the validation loss ties the best score, so the snapshot is
retained. -/
def cSt2 : FitState :=
  { net := cNetOpt, best_inst := some [], best_score := ERat.fin 0,
    best_epoch := 0,
    hist := { epoch := [0, 1], train_loss := [0, 0],
              validation_loss := [0, 0] } }

/-- Sum of the parameter counts of all descriptors registered in a
`WeightsParser`. -/
def WeightsParser.sumCounts (p : WeightsParser) : ℕ :=
  (p.idxs.map (fun e => e.2.2)).sum

/-- A `Dense`-like layer used by witnesses: two parameters regardless of
the input shape, constant initial values, identity forward pass. -/
def cLayer : Layer :=
  { variant := "Dense", number := 0,
    build_weights_dict := fun s => some (2, s),
    initLayerWeights := fun n => List.replicate n 1,
    forward := fun x _ => x }

/-- The network obtained by `mkFFN [1] [cLayer] cLoss none none`. -/
def cNet5 : FFN :=
  { parser := { idxs := [(Layer.str { cLayer with number := 0 }, 0, 2)],
                N := 2 },
    regularization := "l2", reg_coef := 0,
    layer_specs := [{ cLayer with number := 0 }],
    W_vect := (([] : List ℚ) ++ List.replicate 2 (1 : ℚ)).map
      (fun x => (1 / 10 : ℚ) * x),
    base_loss := cLoss, _optimiser := none }

/-- The penalty selected by the claim's wording (spec §4.3): squared L2
norm for kind `"l2"`, L1 norm for `"l1"`, zero for any other kind, and
zero whenever `omit_reg` is true. -/
def penaltySpec (kind : String) (omit_reg : Bool) (w : List ℚ) : ℚ :=
  if omit_reg then 0
  else if kind == "l2" then normSqL2 w
  else if kind == "l1" then normL1 w
  else 0

/-! ## Claim theorems -/

/-- C1: for every parameter vector `W`, inputs `X`, targets `y` and flag
`omit_reg`, `Network.loss(W, X, y, omit_reg)` equals
`base_loss(_predict(W, X), y) + reg_coef * penalty(W)`, where the penalty
is the squared L2 norm for kind `"l2"`, the L1 norm for `"l1"`, zero for
any other kind, and zero whenever `omit_reg` is true. -/
theorem confirmed_C1 (net : FFN) (w X y : List ℚ) (omit_reg : Bool) :
    net.lossFn w X y omit_reg =
      (net.predictW w X).map (fun p =>
        (net.base_loss p y).addScalar
          (net.reg_coef * penaltySpec net.regularization omit_reg w)) := by
  cases omit_reg with
  | true => simp [FFN.lossFn, penaltySpec]
  | false =>
    cases hl2 : net.regularization == "l2" with
    | true => simp [FFN.lossFn, penaltySpec, hl2]
    | false =>
      cases hl1 : net.regularization == "l1" with
      | true => simp [FFN.lossFn, penaltySpec, hl2, hl1]
      | false => simp [FFN.lossFn, penaltySpec, hl2, hl1]

/-- Adding the scalar `0` to a numpy value is the identity (broadcast on
each entry). -/
theorem NPVal.addScalar_zero (v : NPVal) : v.addScalar 0 = v := by
  cases v <;> simp [NPVal.addScalar]

/-- C7: `eval(x, y)` equals `loss(W, x, y, omit_reg=True)` at the live
parameter vector, and hence equals the bare collaborator loss on the
predictions — evaluation numbers never include the regularization
penalty. -/
theorem confirmed_C7 (net : FFN) (x y : List ℚ) :
    net.eval x y = net.lossFn net.W_vect x y true ∧
    net.eval x y =
      (net.predictW net.W_vect x).map (fun p => net.base_loss p y) := by
  refine ⟨rfl, ?_⟩
  show net.lossFn net.W_vect x y true = _
  simp [FFN.lossFn, NPVal.addScalar_zero]

/-- C10: a network constructed without the `regularization` keyword gets
the default kind `"l2"`, so its loss with `omit_reg` false carries the
`reg_coef * (squared L2 norm)` term. -/
theorem confirmed_C10 (input_shape : List ℕ) (layer_specs : List Layer)
    (loss : List ℚ → List ℚ → NPVal) (regCoefKW : Option ℚ) (net : FFN)
    (h : mkFFN input_shape layer_specs loss none regCoefKW = some net) :
    net.regularization = "l2" ∧
    ∀ w X y : List ℚ,
      net.lossFn w X y false =
        (net.predictW w X).map (fun p =>
          (net.base_loss p y).addScalar (net.reg_coef * normSqL2 w)) := by
  unfold mkFFN at h
  cases e : initLayersGo { idxs := [], N := 0 } [] input_shape 0 layer_specs
      with
  | none => rw [e] at h; cases h
  | some r =>
    rw [e] at h
    injection h with h
    subst h
    refine ⟨rfl, ?_⟩
    intro w X y
    simp [FFN.lossFn]

/-- C10 witness: constructing the trivial zero-layer network with no
`regularization` keyword yields kind `"l2"` and the squared-L2 loss
shape. -/
theorem confirmed_C10_witness :
    cNet.regularization = "l2" ∧
    cNet.lossFn [1] [] [] false =
      (cNet.predictW [1] []).map (fun p =>
        (cNet.base_loss p []).addScalar (cNet.reg_coef * normSqL2 [1])) :=
  ⟨(confirmed_C10 [] [] cLoss none cNet
      (by simp [mkFFN, initLayersGo, cNet])).1,
   (confirmed_C10 [] [] cLoss none cNet
      (by simp [mkFFN, initLayersGo, cNet])).2 [1] [] []⟩

/-- A successful `add_weights` grows the registered total by exactly the
new descriptor's count. -/
theorem add_weights_sumCounts (p p1 : WeightsParser) (id : String)
    (count : ℕ) (h : p.add_weights id count = some p1) :
    p1.sumCounts = p.sumCounts + count := by
  unfold WeightsParser.add_weights at h
  split at h
  · cases h
  · injection h with h
    subst h
    simp [WeightsParser.sumCounts]

/-- Construction-loop invariant: a successful `initLayersGo` run grows
the flat vector and the parser's registered total in lock-step, provided
every layer's initializer honours its contract (`initializer(size=(n,))`
returns exactly `n` values). -/
theorem initLayersGo_len (ls : List Layer) :
    ∀ (parser : WeightsParser) (w : List ℚ) (shape : List ℕ) (num : ℕ)
      (r : WeightsParser × List ℚ × List Layer),
    initLayersGo parser w shape num ls = some r →
    (∀ l ∈ ls, ∀ n, (l.initLayerWeights n).length = n) →
    r.2.1.length + parser.sumCounts = w.length + r.1.sumCounts := by
  induction ls with
  | nil =>
    intro parser w shape num r h _
    unfold initLayersGo at h
    injection h with h
    subst h
    simp
  | cons l rest ih =>
    intro parser w shape num r h hinit
    unfold initLayersGo at h
    split at h
    · cases h
    rename_i nw hb
    split at h
    · cases h
    rename_i parser1 ha
    split at h
    · cases h
    rename_i r1 hr
    injection h with h
    subst h
    have hlen := ih parser1
      (w ++ ({ l with number := num } : Layer).initLayerWeights nw.1)
      nw.2 (num + 1) r1 hr (fun l2 hl2 n => hinit l2 (by simp [hl2]) n)
    have hinitl : (({ l with number := num } : Layer).initLayerWeights
        nw.1).length = nw.1 := hinit l (by simp) nw.1
    have hsum := add_weights_sumCounts parser parser1
      (Layer.str { l with number := num }) nw.1 ha
    simp only [List.length_append, hinitl, hsum] at hlen ⊢
    omega

/-- C5: immediately after a successful construction, the flat
`ParameterVector` has exactly as many entries as the total parameter
count registered in the `WeightsParser`, for any layer sequence whose
initializers honour the `initializer(size=(n,)) → n values` contract. -/
theorem confirmed_C5 (input_shape : List ℕ) (layer_specs : List Layer)
    (loss : List ℚ → List ℚ → NPVal) (regKW : Option String)
    (regCoefKW : Option ℚ) (net : FFN)
    (hinit : ∀ l ∈ layer_specs, ∀ n, (l.initLayerWeights n).length = n)
    (h : mkFFN input_shape layer_specs loss regKW regCoefKW = some net) :
    net.W_vect.length = net.parser.sumCounts := by
  unfold mkFFN at h
  cases e : initLayersGo { idxs := [], N := 0 } [] input_shape 0 layer_specs
      with
  | none => rw [e] at h; cases h
  | some r =>
    rw [e] at h
    injection h with h
    subst h
    have := initLayersGo_len layer_specs { idxs := [], N := 0 } [] input_shape
      0 r e hinit
    simp [WeightsParser.sumCounts] at this
    simpa [WeightsParser.sumCounts] using this

/-- C5 witness: one `Dense`-like layer registering two parameters yields
a two-entry parameter vector. -/
theorem confirmed_C5_witness : cNet5.W_vect.length = cNet5.parser.sumCounts :=
  confirmed_C5 [1] [cLayer] cLoss none none cNet5
    (by
      intro l hl n
      simp only [List.mem_singleton] at hl
      subst hl
      simp [cLayer])
    (by simp [mkFFN, initLayersGo, cLayer, cNet5, WeightsParser.add_weights])

/-! ## Helper lemmas about the training loop -/

/-- `ERat.lt` is transitive. -/
theorem ERat.lt_trans {a b c : ERat} (hab : a.lt b = true)
    (hbc : b.lt c = true) : a.lt c = true := by
  cases a <;> cases b <;> cases c <;> simp_all [ERat.lt]
  exact hab.trans hbc

/-- `ERat.lt` is irreflexive. -/
theorem ERat.lt_irrefl (a : ERat) : a.lt a = false := by
  cases a <;> simp [ERat.lt]

/-- The snapshot update always installs the epoch's history. -/
theorem snapshotUpdate_hist (mm : Bool) (i : ℕ) (v : ℚ) (net1 : FFN)
    (hist2 : History) (st : FitState) :
    (snapshotUpdate mm i v net1 hist2 st).hist = hist2 := by
  unfold snapshotUpdate
  split
  · rfl
  · split
    · rfl
    · rfl

/-- The snapshot update always installs the post-batch network. -/
theorem snapshotUpdate_net (mm : Bool) (i : ℕ) (v : ℚ) (net1 : FFN)
    (hist2 : History) (st : FitState) :
    (snapshotUpdate mm i v net1 hist2 st).net = net1 := by
  unfold snapshotUpdate
  split
  · rfl
  · split
    · rfl
    · rfl

/-- Case analysis of the snapshot update: either the best triple is
untouched, or the configured direction's strict comparison succeeded and
the triple now records this epoch. -/
theorem snapshotUpdate_best (mm : Bool) (i : ℕ) (v : ℚ) (net1 : FFN)
    (hist2 : History) (st : FitState) :
    ((snapshotUpdate mm i v net1 hist2 st).best_inst = st.best_inst ∧
     (snapshotUpdate mm i v net1 hist2 st).best_score = st.best_score ∧
     (snapshotUpdate mm i v net1 hist2 st).best_epoch = st.best_epoch) ∨
    (mm = true ∧ ERat.lt (ERat.fin v) st.best_score = true ∧
     (snapshotUpdate mm i v net1 hist2 st).best_score = ERat.fin v ∧
     (snapshotUpdate mm i v net1 hist2 st).best_inst = some net1.W_vect ∧
     (snapshotUpdate mm i v net1 hist2 st).best_epoch = i) ∨
    (mm = false ∧ ERat.lt st.best_score (ERat.fin v) = true ∧
     (snapshotUpdate mm i v net1 hist2 st).best_score = ERat.fin v ∧
     (snapshotUpdate mm i v net1 hist2 st).best_inst = some net1.W_vect ∧
     (snapshotUpdate mm i v net1 hist2 st).best_epoch = i) := by
  unfold snapshotUpdate
  split
  · rename_i hc
    rw [Bool.and_eq_true] at hc
    exact Or.inr (Or.inl ⟨hc.1, hc.2, rfl, rfl, rfl⟩)
  · split
    · rename_i hc
      rw [Bool.and_eq_true, Bool.not_eq_true'] at hc
      exact Or.inr (Or.inr ⟨hc.1, hc.2, rfl, rfl, rfl⟩)
    · exact Or.inl ⟨rfl, rfl, rfl⟩

/-- How the best triple may evolve from `old` to `new` across any number
of epochs: untouched, or strictly improved in the configured direction.
-/
def bestEvolves (mm : Bool) (old new : FitState) : Prop :=
  (new.best_inst = old.best_inst ∧ new.best_score = old.best_score ∧
   new.best_epoch = old.best_epoch) ∨
  (mm = true ∧ ERat.lt new.best_score old.best_score = true) ∨
  (mm = false ∧ ERat.lt old.best_score new.best_score = true)

/-- `bestEvolves` composes. -/
theorem bestEvolves_trans {mm : Bool} {a b c : FitState}
    (h1 : bestEvolves mm a b) (h2 : bestEvolves mm b c) :
    bestEvolves mm a c := by
  rcases h1 with ⟨e1, e2, e3⟩ | ⟨hm1, hl1⟩ | ⟨hm1, hl1⟩ <;>
    rcases h2 with ⟨f1, f2, f3⟩ | ⟨hm2, hl2⟩ | ⟨hm2, hl2⟩
  · exact Or.inl ⟨f1.trans e1, f2.trans e2, f3.trans e3⟩
  · exact Or.inr (Or.inl ⟨hm2, by rw [e2] at hl2; exact hl2⟩)
  · exact Or.inr (Or.inr ⟨hm2, by rw [← e2]; exact hl2⟩)
  · exact Or.inr (Or.inl ⟨hm1, by rw [f2]; exact hl1⟩)
  · exact Or.inr (Or.inl ⟨hm1, ERat.lt_trans hl2 hl1⟩)
  · rw [hm1] at hm2; cases hm2
  · exact Or.inr (Or.inr ⟨hm1, by rw [← f2] at hl1; exact hl1⟩)
  · rw [hm1] at hm2; cases hm2
  · exact Or.inr (Or.inr ⟨hm1, ERat.lt_trans hl1 hl2⟩)

/-- One snapshot update is a `bestEvolves` step. -/
theorem snapshotUpdate_bestEvolves (mm : Bool) (i : ℕ) (v : ℚ) (net1 : FFN)
    (hist2 : History) (st : FitState) :
    bestEvolves mm st (snapshotUpdate mm i v net1 hist2 st) := by
  rcases snapshotUpdate_best mm i v net1 hist2 st with
    h | ⟨hm, hlt, hs, _, _⟩ | ⟨hm, hlt, hs, _, _⟩
  · exact Or.inl h
  · exact Or.inr (Or.inl ⟨hm, by rw [hs]; exact hlt⟩)
  · exact Or.inr (Or.inr ⟨hm, by rw [hs]; exact hlt⟩)

/-- Across any successful run of the epoch loop, the best triple only
evolves by strict improvements. -/
theorem runEpochs_best_mono (opt : Optimiser)
    (batches : List (List ℚ × List ℚ)) (vX vY : List ℚ) (mm vb : Bool) :
    ∀ (k i : ℕ) (st st' : FitState),
    runEpochs opt batches vX vY mm vb k i st = some st' →
    bestEvolves mm st st' := by
  intro k
  induction k with
  | zero =>
    intro i st st' h
    unfold runEpochs at h
    injection h with h
    subst h
    exact Or.inl ⟨rfl, rfl, rfl⟩
  | succ k ih =>
    intro i st st' h
    simp only [runEpochs] at h
    split at h
    · cases h
    · rename_i v hv
      split at h
      · injection h with h
        subst h
        exact snapshotUpdate_bestEvolves mm i v _ _ st
      · exact bestEvolves_trans (snapshotUpdate_bestEvolves mm i v _ _ st)
          (ih (i + 1) _ st' h)

/-- C2: across any successful run of the epoch loop the best snapshot
triple either stays untouched or carries a strictly better score in the
configured direction (so `best_score` never regresses and ties never
replace the snapshot); moreover, at the update site itself, a validation
loss equal to `best_score` leaves all three snapshot components
unchanged. -/
theorem confirmed_C2 (opt : Optimiser) (batches : List (List ℚ × List ℚ))
    (vX vY : List ℚ) (mm vb : Bool) (k i : ℕ) (st st' : FitState)
    (h : runEpochs opt batches vX vY mm vb k i st = some st') :
    (((st'.best_inst = st.best_inst ∧ st'.best_score = st.best_score ∧
       st'.best_epoch = st.best_epoch) ∨
      (mm = true ∧ ERat.lt st'.best_score st.best_score = true) ∨
      (mm = false ∧ ERat.lt st.best_score st'.best_score = true))) ∧
    (∀ (j : ℕ) (v : ℚ) (net1 : FFN) (hist2 : History),
      ERat.fin v = st.best_score →
      (snapshotUpdate mm j v net1 hist2 st).best_inst = st.best_inst ∧
      (snapshotUpdate mm j v net1 hist2 st).best_score = st.best_score ∧
      (snapshotUpdate mm j v net1 hist2 st).best_epoch = st.best_epoch) := by
  constructor
  · exact runEpochs_best_mono opt batches vX vY mm vb k i st st' h
  · intro j v net1 hist2 htie
    unfold snapshotUpdate
    rw [← htie, ERat.lt_irrefl (ERat.fin v)]
    simp

/-- C2 witness: an epoch run starting from `cSt1` (whose best score,
`0`, is finite) with validation loss tied at `0`: the snapshot is kept,
not replaced, and the tie conjunct applies with an honest tie. -/
theorem confirmed_C2_witness :
    (((cSt2.best_inst = cSt1.best_inst ∧ cSt2.best_score = cSt1.best_score ∧
       cSt2.best_epoch = cSt1.best_epoch) ∨
      (true = true ∧ ERat.lt cSt2.best_score cSt1.best_score = true) ∨
      (true = false ∧ ERat.lt cSt1.best_score cSt2.best_score = true))) ∧
    ((snapshotUpdate true 1 0 cNetOpt cSt1.hist cSt1).best_inst =
       cSt1.best_inst ∧
     (snapshotUpdate true 1 0 cNetOpt cSt1.hist cSt1).best_score =
       cSt1.best_score ∧
     (snapshotUpdate true 1 0 cNetOpt cSt1.hist cSt1).best_epoch =
       cSt1.best_epoch) :=
  ⟨(confirmed_C2 cOpt cBatches [] [] true false 1 1 cSt1 cSt2 (by
      simp [runEpochs, epochHist, snapshotUpdate, runBatches, cOpt, cBatches,
        initFitState, cNet, FFN.eval, FFN.lossFn, FFN.predictW, predictGo,
        NPVal.item0, NPVal.addScalar, npMean, ERat.lt, cSt1, cSt2, cNetOpt,
        cLoss])).1,
   (confirmed_C2 cOpt cBatches [] [] true false 1 1 cSt1 cSt2 (by
      simp [runEpochs, epochHist, snapshotUpdate, runBatches, cOpt, cBatches,
        initFitState, cNet, FFN.eval, FFN.lossFn, FFN.predictW, predictGo,
        NPVal.item0, NPVal.addScalar, npMean, ERat.lt, cSt1, cSt2, cNetOpt,
        cLoss])).2 1 0 cNetOpt cSt1.hist rfl⟩

/-- An optimiser stub that signals stop exactly on the batch whose input
is `[2]` — the last batch of `cBatches2`. -/
def cStopLastOpt : Optimiser :=
  { apply := fun _ X _ w _ => (X == [2], w, 0) }

/-- The state after the single epoch run by `cStopLastOpt` on
`cBatches2` from `cSt0` (the loop breaks because the last batch
signalled stop). -/
def cStopSt1 : FitState :=
  { net := cNetOpt, best_inst := some [], best_score := ERat.fin 0,
    best_epoch := 0,
    hist := { epoch := [0], train_loss := [0], validation_loss := [0] } }

/-- C3 counterexample: the optimiser signals `stop_flag` true on the
first batch of epoch 0 (input `[1]`), yet `fit` run for two epochs
executes epoch 1 as well — the flag was overwritten by the second batch,
so "any batch returns stop_flag true ⟹ no further epochs" is false of
the code. -/
theorem corrected_C3_counterexample :
    (cStopFirstOpt.apply cNetOpt.lossFn [1] [0] [] false).1 = true ∧
    (FFN.fit cNet 0 cStopFirstOpt cBatches2 [] [] (some 2) false true
      true).map (fun r => r.2.epoch) = some [0, 1] := by
  constructor
  · simp [cStopFirstOpt]
  · simp [FFN.fit, epochsVal, runEpochs, epochHist, snapshotUpdate, runBatches,
      cStopFirstOpt, cBatches2, initFitState, cNet, FFN.eval, FFN.lossFn,
      FFN.predictW, predictGo, NPVal.item0, NPVal.addScalar, npMean,
      ERat.lt, cLoss]

/-- C3 as amended: `to_stop` is overwritten by every batch, so only the
flag returned by the epoch's last batch is consulted, once per epoch.
If the batch loop of an epoch ends with `stop_flag` true, the epoch loop
terminates immediately after that epoch's history bookkeeping (epoch
index, training loss and validation loss appended) and no further epochs
are executed. -/
theorem corrected_C3 (opt : Optimiser) (batches : List (List ℚ × List ℚ))
    (vX vY : List ℚ) (mm vb : Bool) (k i : ℕ) (st : FitState)
    (hstop : (runBatches opt vb st.net false [] batches).2.1 = true)
    (st' : FitState)
    (h : runEpochs opt batches vX vY mm vb (k + 1) i st = some st') :
    st'.hist.epoch = st.hist.epoch ++ [i] ∧
    st'.hist.train_loss = st.hist.train_loss ++
      [npMean (runBatches opt vb st.net false [] batches).2.2] ∧
    ∃ v, st'.hist.validation_loss = st.hist.validation_loss ++ [v] := by
  simp only [runEpochs] at h
  split at h
  · cases h
  · rename_i v hv
    rw [hstop] at h
    simp only [if_pos rfl] at h
    injection h with h
    subst h
    rw [snapshotUpdate_hist]
    exact ⟨rfl, rfl, v, rfl⟩

/-- C3 witness: the stub stopping on the last batch halts training after
epoch 0's bookkeeping. -/
theorem corrected_C3_witness :
    cStopSt1.hist.epoch = cSt0.hist.epoch ++ [0] ∧
    cStopSt1.hist.train_loss = cSt0.hist.train_loss ++
      [npMean (runBatches cStopLastOpt false cSt0.net false []
        cBatches2).2.2] ∧
    ∃ v, cStopSt1.hist.validation_loss =
      cSt0.hist.validation_loss ++ [v] :=
  corrected_C3 cStopLastOpt cBatches2 [] [] true false 1 0 cSt0
    (by simp [runBatches, cStopLastOpt, cBatches2, cSt0, initFitState,
      cNet])
    cStopSt1
    (by norm_num [runEpochs, epochHist, snapshotUpdate, runBatches, cStopLastOpt,
      cBatches2, cSt0, initFitState, cNet, FFN.eval, FFN.lossFn,
      FFN.predictW, predictGo, NPVal.item0, NPVal.addScalar, npMean,
      ERat.lt, cStopSt1, cNetOpt, cLoss])

/-- C4 counterexample: calling `fit` with `epochs = 0` neither performs
zero epochs nor rejects the call — it runs exactly one training epoch
(`epochs if epochs else 1` treats the falsy `0` as unset). -/
theorem corrected_C4_counterexample :
    (FFN.fit cNet 0 cOpt cBatches [] [] (some 0) false true true).map
      (fun r => r.2.epoch) = some [0] := by
  simp [FFN.fit, epochsVal, runEpochs, epochHist, snapshotUpdate, runBatches, cOpt,
    cBatches, initFitState, cNet, FFN.eval, FFN.lossFn, FFN.predictW,
    predictGo, NPVal.item0, NPVal.addScalar, npMean, ERat.lt, cLoss]

/-- C4 as amended: `epochs == 0` is falsy, so `fit` silently substitutes
the default of `1` and behaves exactly as a call without the `epochs`
argument — one training epoch runs. -/
theorem corrected_C4 (net : FFN) (optRef : ℕ) (opt : Optimiser)
    (batches : List (List ℚ × List ℚ)) (vX vY : List ℚ) (vb lb mm : Bool) :
    FFN.fit net optRef opt batches vX vY (some 0) vb lb mm =
      FFN.fit net optRef opt batches vX vY none vb lb mm ∧
    epochsVal (some 0) = 1 :=
  ⟨rfl, rfl⟩

/-- The snapshot update leaves `best_inst` alone or stores the (deep
copy of the) current live vector. -/
theorem snapshotUpdate_best_inst (mm : Bool) (i : ℕ) (v : ℚ) (net1 : FFN)
    (hist2 : History) (st : FitState) :
    (snapshotUpdate mm i v net1 hist2 st).best_inst = st.best_inst ∨
    (snapshotUpdate mm i v net1 hist2 st).best_inst = some net1.W_vect := by
  unfold snapshotUpdate
  split
  · exact Or.inr rfl
  · split
    · exact Or.inr rfl
    · exact Or.inl rfl

/-- Once a best snapshot exists, every further epoch keeps one. -/
theorem runEpochs_keeps_some (opt : Optimiser)
    (batches : List (List ℚ × List ℚ)) (vX vY : List ℚ) (mm vb : Bool) :
    ∀ (k i : ℕ) (st st' : FitState) (w : List ℚ),
    runEpochs opt batches vX vY mm vb k i st = some st' →
    st.best_inst = some w → ∃ u, st'.best_inst = some u := by
  intro k
  induction k with
  | zero =>
    intro i st st' w h hb
    unfold runEpochs at h
    injection h with h
    subst h
    exact ⟨w, hb⟩
  | succ k ih =>
    intro i st st' w h hb
    simp only [runEpochs] at h
    split at h
    · cases h
    · rename_i v hv
      split at h
      · injection h with h
        subst h
        exact (snapshotUpdate_best_inst mm i v _ _ st).elim
          (fun he => ⟨w, he.trans hb⟩) (fun he => ⟨_, he⟩)
      · exact (snapshotUpdate_best_inst mm i v _ _ st).elim
          (fun he => ih _ _ _ w h (he.trans hb))
          (fun he => ih _ _ _ _ h he)

/-- From the `±np.inf` initialisation, the very first epoch records a
snapshot — any finite validation loss beats the initial score in either
direction — and it is never lost afterwards. -/
theorem runEpochs_first_sets (opt : Optimiser)
    (batches : List (List ℚ × List ℚ)) (vX vY : List ℚ) (mm vb : Bool)
    (k i : ℕ) (st st' : FitState)
    (hbs : st.best_score = (if mm then ERat.posInf else ERat.negInf))
    (h : runEpochs opt batches vX vY mm vb (k + 1) i st = some st') :
    ∃ u, st'.best_inst = some u := by
  simp only [runEpochs] at h
  split at h
  · cases h
  · rename_i v hv
    have hupd : ∀ (net1 : FFN) (hist2 : History),
        (snapshotUpdate mm i v net1 hist2 st).best_inst =
          some net1.W_vect := by
      intro net1 hist2
      cases mm with
      | true =>
        unfold snapshotUpdate
        rw [hbs]
        simp [ERat.lt]
      | false =>
        unfold snapshotUpdate
        rw [hbs]
        simp [ERat.lt]
    split at h
    · injection h with h
      subst h
      exact ⟨_, hupd _ _⟩
    · exact runEpochs_keeps_some opt batches vX vY mm vb k (i + 1) _ st' _ h
        (hupd _ _)

/-- C6: when `fit` (with `load_best_model_on_end` true) returns, the
epoch loop recorded a best snapshot — guaranteed after at least one
epoch, since any finite validation score beats the `±np.inf`
initialisation (`runEpochs_first_sets`) — and the returned network's
live parameter vector is exactly that snapshot (an independent copy
under the embedding's value semantics), with the returned history being
the loop's history. -/
theorem confirmed_C6 (net : FFN) (optRef : ℕ) (opt : Optimiser)
    (batches : List (List ℚ × List ℚ)) (vX vY : List ℚ)
    (epochsArg : Option ℕ) (vb mm : Bool) (netF : FFN) (hist : History)
    (h : FFN.fit net optRef opt batches vX vY epochsArg vb true mm =
      some (netF, hist)) :
    (runEpochs opt batches vX vY mm vb (epochsVal epochsArg) 0
      (initFitState net optRef mm)).map (fun s => s.best_inst) =
      some (some netF.W_vect) ∧
    (runEpochs opt batches vX vY mm vb (epochsVal epochsArg) 0
      (initFitState net optRef mm)).map (fun s => s.hist) = some hist := by
  unfold FFN.fit at h
  cases e : runEpochs opt batches vX vY mm vb (epochsVal epochsArg) 0
      (initFitState net optRef mm) with
  | none => rw [e] at h; cases h
  | some st =>
    rw [e] at h
    dsimp only at h
    cases hb : st.best_inst with
    | none => rw [hb] at h; cases h
    | some w =>
      rw [hb] at h
      injection h with h
      rw [Prod.mk.injEq] at h
      obtain ⟨h1, h2⟩ := h
      subst h1
      subst h2
      constructor
      · simp [hb]
      · simp

/-- C6 witness: one epoch on the trivial network; the final live vector
is the recorded snapshot. -/
theorem confirmed_C6_witness :
    (runEpochs cOpt cBatches [] [] true false (epochsVal none) 0
      (initFitState cNet 0 true)).map (fun s => s.best_inst) =
      some (some cNetOpt.W_vect) ∧
    (runEpochs cOpt cBatches [] [] true false (epochsVal none) 0
      (initFitState cNet 0 true)).map (fun s => s.hist) =
      some { epoch := [0], train_loss := [0], validation_loss := [0] } :=
  confirmed_C6 cNet 0 cOpt cBatches [] [] none false true cNetOpt
    { epoch := [0], train_loss := [0], validation_loss := [0] }
    (by simp [FFN.fit, epochsVal, runEpochs, epochHist, snapshotUpdate,
      runBatches, cOpt, cBatches, initFitState, cNet, FFN.eval, FFN.lossFn,
      FFN.predictW, predictGo, NPVal.item0, NPVal.addScalar, npMean,
      ERat.lt, cNetOpt, cLoss])

/-- Equality of every `FFN` field except the live parameter vector. -/
def sameFrame (a b : FFN) : Prop :=
  a.parser = b.parser ∧ a.regularization = b.regularization ∧
  a.reg_coef = b.reg_coef ∧ a.layer_specs = b.layer_specs ∧
  a.base_loss = b.base_loss ∧ a._optimiser = b._optimiser

/-- `sameFrame` is reflexive. -/
theorem sameFrame_refl (a : FFN) : sameFrame a a :=
  ⟨rfl, rfl, rfl, rfl, rfl, rfl⟩

/-- `sameFrame` composes. -/
theorem sameFrame_trans {a b c : FFN} (h1 : sameFrame a b)
    (h2 : sameFrame b c) : sameFrame a c :=
  ⟨h1.1.trans h2.1, h1.2.1.trans h2.2.1, h1.2.2.1.trans h2.2.2.1,
   h1.2.2.2.1.trans h2.2.2.2.1, h1.2.2.2.2.1.trans h2.2.2.2.2.1,
   h1.2.2.2.2.2.trans h2.2.2.2.2.2⟩

/-- The batch loop only reassigns `W_vect`. -/
theorem runBatches_frame (opt : Optimiser) (vb : Bool) :
    ∀ (bs : List (List ℚ × List ℚ)) (net : FFN) (ts : Bool)
      (acc : List ℚ),
    sameFrame (runBatches opt vb net ts acc bs).1 net := by
  intro bs
  induction bs with
  | nil => intro net ts acc; exact sameFrame_refl net
  | cons b rest ih =>
    intro net ts acc
    unfold runBatches
    exact sameFrame_trans (ih _ _ _) ⟨rfl, rfl, rfl, rfl, rfl, rfl⟩

/-- The epoch loop only reassigns `W_vect` of the network it carries. -/
theorem runEpochs_frame (opt : Optimiser)
    (batches : List (List ℚ × List ℚ)) (vX vY : List ℚ) (mm vb : Bool) :
    ∀ (k i : ℕ) (st st' : FitState),
    runEpochs opt batches vX vY mm vb k i st = some st' →
    sameFrame st'.net st.net := by
  intro k
  induction k with
  | zero =>
    intro i st st' h
    unfold runEpochs at h
    injection h with h
    subst h
    exact sameFrame_refl st.net
  | succ k ih =>
    intro i st st' h
    simp only [runEpochs] at h
    split at h
    · cases h
    · rename_i v hv
      split at h
      · injection h with h
        subst h
        rw [snapshotUpdate_net]
        exact runBatches_frame opt vb batches st.net false []
      · exact sameFrame_trans (ih (i + 1) _ st' h)
          (by rw [snapshotUpdate_net]
              exact runBatches_frame opt vb batches st.net false [])

/-- C9 counterexample: `fit` creates/overwrites a field other than the
parameter vector — `self._optimiser` is `None`-absent before the call
and holds the passed optimiser afterwards. -/
theorem corrected_C9_counterexample :
    cNet._optimiser = none ∧
    (FFN.fit cNet 0 cOpt cBatches [] [] none false true true).map
      (fun r => r.1._optimiser) = some (some 0) := by
  constructor
  · rfl
  · simp [FFN.fit, epochsVal, runEpochs, epochHist, snapshotUpdate,
      runBatches, cOpt, cBatches, initFitState, cNet, FFN.eval, FFN.lossFn,
      FFN.predictW, predictGo, NPVal.item0, NPVal.addScalar, npMean,
      ERat.lt, cLoss]

/-- C9 as amended: training mutates exactly the parameter vector and the
`_optimiser` attribute (which `fit` sets to the optimiser passed in);
the parser, the regularization configuration, the layer sequence and the
loss collaborator are identical before and after `fit`. -/
theorem corrected_C9 (net : FFN) (optRef : ℕ) (opt : Optimiser)
    (batches : List (List ℚ × List ℚ)) (vX vY : List ℚ)
    (epochsArg : Option ℕ) (vb lb mm : Bool) (netF : FFN) (hist : History)
    (h : FFN.fit net optRef opt batches vX vY epochsArg vb lb mm =
      some (netF, hist)) :
    netF.parser = net.parser ∧ netF.regularization = net.regularization ∧
    netF.reg_coef = net.reg_coef ∧ netF.layer_specs = net.layer_specs ∧
    netF.base_loss = net.base_loss ∧ netF._optimiser = some optRef := by
  unfold FFN.fit at h
  cases e : runEpochs opt batches vX vY mm vb (epochsVal epochsArg) 0
      (initFitState net optRef mm) with
  | none => rw [e] at h; cases h
  | some st =>
    rw [e] at h
    dsimp only at h
    have hfr : sameFrame st.net { net with _optimiser := some optRef } :=
      runEpochs_frame opt batches vX vY mm vb (epochsVal epochsArg) 0
        (initFitState net optRef mm) st e
    split at h
    · split at h
      · rename_i w hb
        injection h with h
        rw [Prod.mk.injEq] at h
        obtain ⟨h1, h2⟩ := h
        subst h1
        exact ⟨hfr.1, hfr.2.1, hfr.2.2.1, hfr.2.2.2.1, hfr.2.2.2.2.1,
          hfr.2.2.2.2.2⟩
      · cases h
    · injection h with h
      rw [Prod.mk.injEq] at h
      obtain ⟨h1, h2⟩ := h
      subst h1
      exact ⟨hfr.1, hfr.2.1, hfr.2.2.1, hfr.2.2.2.1, hfr.2.2.2.2.1,
        hfr.2.2.2.2.2⟩

/-- C9 witness: the amended frame statement at the one-epoch run of the
constant optimiser on the trivial network. -/
theorem corrected_C9_witness :
    cNetOpt.parser = cNet.parser ∧
    cNetOpt.regularization = cNet.regularization ∧
    cNetOpt.reg_coef = cNet.reg_coef ∧
    cNetOpt.layer_specs = cNet.layer_specs ∧
    cNetOpt.base_loss = cNet.base_loss ∧
    cNetOpt._optimiser = some 0 :=
  corrected_C9 cNet 0 cOpt cBatches [] [] none false true true cNetOpt
    { epoch := [0], train_loss := [0], validation_loss := [0] }
    (by simp [FFN.fit, epochsVal, runEpochs, epochHist, snapshotUpdate,
      runBatches, cOpt, cBatches, initFitState, cNet, FFN.eval, FFN.lossFn,
      FFN.predictW, predictGo, NPVal.item0, NPVal.addScalar, npMean,
      ERat.lt, cNetOpt, cLoss])

/-- C8 (code bug): `fit` computes
`val_loss = self.eval(*validation_sample)[0]`, but `eval` is annotated
`-> float` and the declared loss-collaborator interface returns a
scalar; indexing that scalar with `[0]` raises, so an interface-honest
loss makes every epoch of `fit` fail rather than append the scalar to
the history.  Here: the scalar-returning collaborator makes `eval`
produce a scalar, `[0]` on it fails, and `fit` returns an error. -/
theorem code_bug_C8 :
    FFN.eval cScalarNet [] [] = some (NPVal.scalar 0) ∧
    NPVal.item0 (NPVal.scalar 0) = none ∧
    FFN.fit cScalarNet 0 cOpt cBatches [] [] none false true true =
      none := by
  refine ⟨?_, rfl, ?_⟩
  · simp [FFN.eval, FFN.lossFn, cScalarNet, cScalarLoss, FFN.predictW,
      predictGo, NPVal.addScalar]
  · simp [FFN.fit, epochsVal, runEpochs, epochHist, snapshotUpdate,
      runBatches, cOpt, cBatches, initFitState, cScalarNet, FFN.eval,
      FFN.lossFn, FFN.predictW, predictGo, NPVal.item0, NPVal.addScalar,
      npMean, ERat.lt, cScalarLoss]

end Citk
